import Mathlib

/-!
Shallow embedding of the VL53L5CX driver core (`src/lib.rs`) and proofs
about its data model and operations: the chunked register transport, the
bounded polls, the DCI framed read/write, the 4x4 grid extrapolation, the
ranging-session stop sequence, the data-ready check and the ranging-data
frame handling.

Machine integers are modelled as `Nat` with explicit `% 2 ^ w` or masking
where the source relies on truncation; byte buffers are `List Nat` (each
entry one byte); fallible operations return `Except DriverError`.  Bus
reads are modelled by a function `Nat → List Nat` giving the bytes
produced by the n-th read operation of the call under study; bus writes
are collected into traces.

The helper module `utils.rs` and the constant table `consts.rs` of the
repository are not part of `src/`; the few definitions that stand in for
them are marked `Modelled from the spec:` in their doc comments.  No
claim below depends on the concrete register addresses or on the exact
scratch-buffer capacity beyond it being in its plausible range.
-/

namespace VL53L5CX

/-- The `Error<B>` enum of `src/lib.rs` (lines 139-149), with the bus
payload erased: in the bus models used here every transport operation
succeeds, so `Bus(B)` carries no payload. -/
inductive DriverError where
  | Bus
  | Other
  | Timeout
  | Mcu
  | Go2
  | CorruptedFrame
  | InvalidParam
  | CheckSumFail
deriving DecidableEq, Repr

/-! ### BlockHeader (src/lib.rs lines 115-121)

`bitfield!` packs a `u32` as: `bh_idx` in bits 31..16, `bh_size` in bits
15..4, `bh_type` in bits 3..0.  The generated accessors extract the bit
range; the setters store a value truncated to the field width. -/

/-- Bits 31..16 of a BlockHeader word (`bh_idx`). -/
def bh_idx (w : Nat) : Nat := w / 2 ^ 16 % 2 ^ 16

/-- Bits 15..4 of a BlockHeader word (`bh_size`). -/
def bh_size (w : Nat) : Nat := w / 2 ^ 4 % 2 ^ 12

/-- Bits 3..0 of a BlockHeader word (`bh_type`). -/
def bh_type (w : Nat) : Nat := w % 2 ^ 4

/-- Packing the three fields into one 32-bit word, each value truncated
to its field width, as the bitfield setters do. -/
def bh_pack (idx size ty : Nat) : Nat :=
  idx % 2 ^ 16 * 2 ^ 16 + size % 2 ^ 12 * 2 ^ 4 + ty % 2 ^ 4

/-! ### Register transport (src/lib.rs lines 363-430) -/

/-- High byte of a 16-bit register address: `(reg >> 8) as u8` after the
`u16` wrap of `reg + i`. -/
def regHi (r : Nat) : Nat := r % 65536 / 256

/-- Low byte of a 16-bit register address: `(reg & 0xFF) as u8`. -/
def regLo (r : Nat) : Nat := r % 256

/-- `write_multi_to_register` (src/lib.rs lines 396-408): the sequence of
physical bus writes issued for payload `wbuf` at register `reg` with the
configured chunk size `cs`.  The loop steps by `cs - 2`; every physical
write restates the 16-bit big-endian register address, advanced by the
byte offset, and carries the next `min (cs - 2) remaining` payload bytes.
`write_multi_to_register_temp_buffer` (lines 418-430) issues the same
sequence for the scratch-buffer contents.  For `cs ≤ 2` the source
`step_by(0)` panics; the model returns the empty trace there. -/
def write_multi_to_register (cs reg : Nat) (wbuf : List Nat) : List (List Nat) :=
  if h : wbuf = [] ∨ cs - 2 = 0 then []
  else
    (regHi reg :: regLo reg :: wbuf.take (cs - 2)) ::
      write_multi_to_register cs (reg + (cs - 2)) (wbuf.drop (cs - 2))
termination_by wbuf.length
decreasing_by
  push_neg at h
  have hlen : wbuf.length ≠ 0 := fun hl => h.1 (List.length_eq_zero.mp hl)
  simp only [List.length_drop]
  omega

/-- `read_from_register` (src/lib.rs lines 363-372): the sequence of
`write_read` bus transactions for a read of `size` bytes from `reg`.
Each transaction writes the 2-byte big-endian address and reads the next
`min cs remaining` bytes into the scratch buffer; the pair records the
address bytes written and the read length.  For `cs = 0` the source
`step_by(0)` panics; the model returns the empty trace there. -/
def read_from_register (cs reg size : Nat) : List (List Nat × Nat) :=
  if h : size = 0 ∨ cs = 0 then []
  else
    ([regHi reg, regLo reg], min cs size) ::
      read_from_register cs (reg + cs) (size - cs)
termination_by size
decreasing_by
  push_neg at h
  omega

/-! ### poll_for_answer (src/lib.rs lines 221-237)

The loop body first reads `size` bytes into the scratch buffer and waits,
then fails with `Mcu` when `size >= 4` and the third byte read is at
least `0x7F`, then succeeds when the byte at `pos` masked with `mask`
equals `expected`; the guard `timeout <= 200` admits 201 iterations
before `Timeout`. -/

/-- One fuel-indexed unfolding of the `poll_for_answer` while loop; `t`
is the index of the next read operation.  Returns the outcome and the
number of read operations performed. -/
def pollAux (reads : Nat → List Nat) (size pos mask expected : Nat) :
    Nat → Nat → Except DriverError Unit × Nat
  | _, 0 => (Except.error DriverError.Timeout, 0)
  | t, n + 1 =>
    let buf := reads t
    if 4 ≤ size ∧ 0x7F ≤ buf.getD 2 0 then
      (Except.error DriverError.Mcu, 1)
    else if buf.getD pos 0 &&& mask = expected then
      (Except.ok (), 1)
    else
      let r := pollAux reads size pos mask expected (t + 1) n
      (r.1, r.2 + 1)

/-- `poll_for_answer`, started with `timeout = 0` against the guard
`timeout <= 200`, hence fuel 201. -/
def poll_for_answer (reads : Nat → List Nat) (size pos mask expected : Nat) :
    Except DriverError Unit × Nat :=
  pollAux reads size pos mask expected 0 201

/-! ### Byte-buffer helpers -/

/-- Modelled from the spec: `utils.rs` (not under `src/`) provides
`swap_buffer(buffer, size)`; spec section 4.3 describes it as a global
byte-order swap operating at 4-byte granularity across the buffer.  The
byte order of each complete 4-byte word inside the first `size` bytes is
reversed. -/
def swapWords : List Nat → List Nat
  | a :: b :: c :: d :: rest => d :: c :: b :: a :: swapWords rest
  | l => l

/-- `swap_buffer(buffer, size)`: the 4-byte-word byte swap applied to the
first `size` bytes; bytes beyond `size` are untouched. -/
def swap_buffer (l : List Nat) (size : Nat) : List Nat :=
  swapWords (l.take size) ++ l.drop size

/-- Storing `bytes` into buffer `l` at position `pos`: the semantics of
a Rust `copy_from_slice` into `l[pos..pos + bytes.len()]`, and of the
descending in-place copy loops, which read every source byte before
overwriting it. -/
def writeAt (l : List Nat) (pos : Nat) (bytes : List Nat) : List Nat :=
  l.take pos ++ bytes ++ l.drop (pos + bytes.length)

/-- The 4 bytes a `read_from_register(reg, 4)` leaves at the start of the
scratch buffer, given the raw bus answer `l`. -/
def read4 (l : List Nat) : List Nat :=
  [l.getD 0 0, l.getD 1 0, l.getD 2 0, l.getD 3 0]

/-! ### Constants of consts.rs used by the DCI layer -/

/-- Modelled from the spec: `consts.rs` (not under `src/`) fixes the DCI
command window registers; spec section 4.3 speaks of the fixed
end-of-buffer anchor of the protocol.  The values are the vendor
protocol ones; no claim below depends on them. -/
def VL53L5CX_UI_CMD_STATUS : Nat := 0x2c00

/-- Modelled from the spec: start register of the DCI command window
(`consts.rs`, not under `src/`). -/
def VL53L5CX_UI_CMD_START : Nat := 0x2c04

/-- Modelled from the spec: end register of the DCI command window
(`consts.rs`, not under `src/`). -/
def VL53L5CX_UI_CMD_END : Nat := 0x2fff

/-- Modelled from the spec: `consts.rs` (not under `src/`) fixes the
scratch-buffer capacity `VL53L5CX_TEMPORARY_BUFFER_SIZE`; spec section 3
requires it to be at least the largest protocol exchange (the NVM dump).
The claims below only need the capacity to lie between 24 and 2012,
which any plausible value satisfies. -/
def VL53L5CX_TEMPORARY_BUFFER_SIZE : Nat := 1452

/-! ### DCI indexed data interface (src/lib.rs lines 479-577) -/

/-- The 4-byte DCI header built by both `dci_read_data` (into `cmd`) and
`dci_write_data` (into `headers`): big-endian index, then the 12-bit
size packed as `(size & 0xff0) >> 4` and `(size & 0xf) << 4`. -/
def dciHeaders (index data_size : Nat) : List Nat :=
  [regHi index, regLo index,
   (data_size &&& 0xff0) >>> 4, (data_size &&& 0xf) <<< 4]

/-- The 8-byte DCI write footer: fixed opcode bytes and the 16-bit
big-endian total length `data_size + 8`. -/
def dciFooter (data_size : Nat) : List Nat :=
  [0x00, 0x00, 0x00, 0x0f, 0x05, 0x01,
   (data_size + 8) / 256 % 256, (data_size + 8) % 256]

/-- `dci_write_data` (src/lib.rs lines 520-556) acting on the scratch
buffer `temp`, whose length is the buffer capacity.  Steps of the
source: capacity check; byte-swap of the first `data_size` bytes; the
descending copy shifting bytes `0..data_size` up to `4..data_size + 4`;
header and footer stores; the on-wire write of the first
`data_size + 12` bytes; the completion poll, whose reads land in the
first 4 bytes of the scratch buffer; and a final byte-swap of the first
`data_size` bytes.  Returns the outcome, the wire bytes passed to
`write_multi_to_register_temp_buffer`, and the scratch buffer as the
call leaves it. -/
def dci_write_data (reads : Nat → List Nat) (index data_size : Nat)
    (temp : List Nat) : Except DriverError Unit × List Nat × List Nat :=
  if data_size + 12 > temp.length then
    (Except.error DriverError.Other, [], temp)
  else
    let t1 := swap_buffer temp data_size
    let t2 := writeAt t1 4 (t1.take data_size)
    let t3 := writeAt t2 0 (dciHeaders index data_size)
    let t4 := writeAt t3 (data_size + 4) (dciFooter data_size)
    let wire := t4.take (data_size + 12)
    let p := poll_for_answer reads 4 1 0xff 0x03
    let t5 := writeAt t4 0 (read4 (reads (p.2 - 1)))
    match p.1 with
    | Except.error e => (Except.error e, wire, t5)
    | Except.ok _ => (Except.ok (), wire, swap_buffer t5 data_size)

/-- A logical bus operation issued by the DCI read path. -/
inductive BusWriteOp where
  | writeMulti (reg : Nat) (data : List Nat)
  | readReg (reg : Nat) (size : Nat)
deriving DecidableEq, Repr

/-- `dci_read_data` (src/lib.rs lines 479-508): the capacity check, the
12-byte command write, the completion poll reading
`VL53L5CX_UI_CMD_STATUS`, and the framed read-back of `data_size + 12`
bytes from `VL53L5CX_UI_CMD_START`.  Returns the outcome and the trace
of bus operations issued.  The in-place byte swap and the 4-byte
down-shift that follow the read-back act only on the scratch buffer and
issue no bus operation; no claim needs them, so the trace-level model
stops at the read-back. -/
def dci_read_data (reads : Nat → List Nat) (index data_size : Nat) :
    Except DriverError Unit × List BusWriteOp :=
  if data_size + 12 > VL53L5CX_TEMPORARY_BUFFER_SIZE then
    (Except.error DriverError.Other, [])
  else
    let cmd : List Nat :=
      [regHi index, regLo index,
       (data_size &&& 0xff0) >>> 4, (data_size &&& 0xf) <<< 4,
       0x00, 0x00, 0x00, 0x0f, 0x00, 0x02, 0x00, 0x08]
    let p := poll_for_answer reads 4 1 0xff 0x03
    let pollOps :=
      (List.range p.2).map (fun _ => BusWriteOp.readReg VL53L5CX_UI_CMD_STATUS 4)
    match p.1 with
    | Except.error e =>
        (Except.error e,
          BusWriteOp.writeMulti (VL53L5CX_UI_CMD_END - 11) cmd :: pollOps)
    | Except.ok _ =>
        (Except.ok (),
          BusWriteOp.writeMulti (VL53L5CX_UI_CMD_END - 11) cmd ::
            (pollOps ++ [BusWriteOp.readReg VL53L5CX_UI_CMD_START (data_size + 12)]))

/-! ### Calibration grid extrapolation
(src/lib.rs lines 277-294 and 331-341) -/

/-- The 2x2 block-reduction step of `send_offset_data` and
`send_xtalk_data` for destination cell `(j, i)`:
`grid[i + 4j] = (g[2i + 16j] + g[2i + 16j + 1] + g[2i + 16j + 8] + g[2i + 16j + 9]) / 4`,
the sum taken in `u64` (which cannot overflow for four `u32` summands)
and the quotient truncated back to `u32`. -/
def gridStep (g : List Nat) (j i : Nat) : List Nat :=
  g.set (i + 4 * j)
    ((g.getD (2 * i + 16 * j) 0 + g.getD (2 * i + 16 * j + 1) 0 +
      g.getD (2 * i + 16 * j + 8) 0 + g.getD (2 * i + 16 * j + 9) 0) / 4 % 2 ^ 32)

/-- The extrapolation of a 64-cell signal grid:
`for j in 0..4 { for i in 0..4 { ... } }` followed by the zero fill
`signal_grid[16..].copy_from_slice(&[0; 48])`.  A pure function of the
input grid, hence deterministic. -/
def extrapolate_grid (g : List Nat) : List Nat :=
  let g2 := (List.range 4).foldl (fun acc j =>
    (List.range 4).foldl (fun acc2 i => gridStep acc2 j i) acc) g
  writeAt g2 16 (List.replicate 48 0)

/-! ### stop_ranging (src/lib.rs lines 811-853) -/

/-- Modelled from the spec: `utils.rs` (not under `src/`) provides
`from_u8_to_u32`, assembling 32-bit scalars from bytes in host
(little-endian) order.  Only the comparison of the result with `0x4ff`
matters below. -/
def u32FromBytes (l : List Nat) : Nat :=
  l.getD 0 0 + l.getD 1 0 * 256 + l.getD 2 0 * 65536 + l.getD 3 0 * 16777216

/-- The MCU-stop poll of `stop_ranging`:
`while self.temp_buffer[0] & 0x80 >> 7 == 0x00 && timeout <= 500`, with
Rust precedence reading the guard as `temp_buffer[0] & (0x80 >> 7) == 0`.
`r` is the index of the next bus read, `b` the current first scratch
byte; the guard `timeout <= 500` admits at most 501 iterations, hence
fuel 501.  Returns the next read index and the first scratch byte after
the loop. -/
def stopPoll (reads : Nat → List Nat) : Nat → Nat → Nat → Nat × Nat
  | r, b, 0 => (r, b)
  | r, b, n + 1 =>
    if b &&& (0x80 >>> 7) = 0 then
      stopPoll reads (r + 1) ((reads r).getD 0 0) n
    else (r, b)

/-- `stop_ranging`: reads the 4-byte auto-stop flag from `0x2ffc`; unless
it equals `0x4ff`, issues the MCU-stop register writes and runs the
bounded status poll; then re-reads register `0x6` and, when its top bit
is set, register `0x7` — returning early when the value is neither
`0x84` nor `0x85` — and otherwise issues the undo-stop and
xshut-bypass-off register writes.  Returns the outcome and the trace of
single-register writes `(register, value)` issued. -/
def stop_ranging (reads : Nat → List Nat) : Except DriverError Unit × List (Nat × Nat) :=
  let buf0 := reads 0
  let auto := u32FromBytes (read4 buf0)
  let st :=
    if auto ≠ 0x4ff then
      stopPoll reads 1 (buf0.getD 0 0) 501
    else (1, buf0.getD 0 0)
  let preWrites : List (Nat × Nat) :=
    if auto ≠ 0x4ff then [(0x7fff, 0x00), (0x15, 0x16), (0x14, 0x01)] else []
  let b1 := (reads st.1).getD 0 0
  let earlyReturn : Bool :=
    b1 &&& 0x80 ≠ 0 && ((reads (st.1 + 1)).getD 0 0 ≠ 0x84 && (reads (st.1 + 1)).getD 0 0 ≠ 0x85)
  if earlyReturn then
    (Except.ok (), preWrites)
  else
    (Except.ok (),
      preWrites ++ [(0x7fff, 0x00), (0x14, 0x00), (0x15, 0x00), (0x09, 0x04), (0x7fff, 0x02)])

/-! ### check_data_ready (src/lib.rs lines 862-881) -/

/-- The readiness condition of `check_data_ready` on the 4 status bytes
read from register 0: the sequence-counter byte differs from the stored
counter and from the sentinel `0xff`, and the three status byte patterns
match. -/
def dataReadyCond (buf : List Nat) (streamcount : Nat) : Prop :=
  buf.getD 0 0 ≠ streamcount ∧ buf.getD 0 0 ≠ 0xff ∧
  buf.getD 1 0 = 0x05 ∧ buf.getD 2 0 &&& 0x05 = 0x05 ∧
  buf.getD 3 0 &&& 0x10 = 0x10

instance (buf : List Nat) (s : Nat) : Decidable (dataReadyCond buf s) := by
  unfold dataReadyCond
  infer_instance

/-- `check_data_ready`, on the 4 status bytes read from register 0 and
the stored `streamcount`.  Returns the `Result<bool, Error>` outcome and
the updated `streamcount` field. -/
def check_data_ready (buf : List Nat) (streamcount : Nat) :
    Except DriverError Bool × Nat :=
  if dataReadyCond buf streamcount then
    (Except.ok true, buf.getD 0 0)
  else if buf.getD 3 0 &&& 0x80 ≠ 0 then
    (Except.error DriverError.Go2, streamcount)
  else
    (Except.ok false, streamcount)

/-! ### get_ranging_data (src/lib.rs lines 889-1037)

Restricted to the controller-state effect and the outcome: the frame of
`data_read_size` bytes read from register 0, the stream-counter update
(line 897, before any validation), the whole-frame byte swap, and the
final header-id against footer-id corruption check (lines 1026-1034).
The decoding of the block list into `ResultsData` (lines 901-1023)
touches neither the stream counter nor the outcome — the walk contains
no failure path — so the model elides it. -/

/-- `get_ranging_data` on the raw `frame` read from register 0 and the
stored `streamcount`.  Returns the outcome (`()` standing for the parsed
`ResultsData`) and the updated `streamcount` field. -/
def get_ranging_data (data_read_size : Nat) (frame : List Nat)
    (streamcount : Nat) : Except DriverError Unit × Nat :=
  let sc := frame.getD 0 0
  let buf := swap_buffer frame data_read_size
  let header_id := (buf.getD 8 0 <<< 8) &&& 0xff00 ||| buf.getD 9 0 &&& 0x00ff
  let footer_id :=
    (buf.getD (data_read_size - 4) 0 <<< 8) &&& 0xff00 |||
      buf.getD (data_read_size - 3) 0 &&& 0x00ff
  if header_id ≠ footer_id then
    (Except.error DriverError.CorruptedFrame, sc)
  else
    (Except.ok (), sc)

/-! ## Theorems -/

/-- Helper: `swapWords` preserves the buffer length. -/
theorem swapWords_length : ∀ l : List Nat, (swapWords l).length = l.length
  | [] => rfl
  | [_] => rfl
  | [_, _] => rfl
  | [_, _, _] => rfl
  | a :: b :: c :: d :: rest => by
    show (d :: c :: b :: a :: swapWords rest).length = (a :: b :: c :: d :: rest).length
    simp [swapWords_length rest]

/-- Helper: a never-matching, never-faulting poll consumes all its fuel,
performing one read per fuel unit, and times out. -/
theorem pollAux_timeout (reads : Nat → List Nat) (size pos mask expected : Nat)
    (hnf : ∀ t, ¬ (4 ≤ size ∧ 0x7F ≤ (reads t).getD 2 0))
    (hnm : ∀ t, (reads t).getD pos 0 &&& mask ≠ expected) :
    ∀ n t, pollAux reads size pos mask expected t n =
      (Except.error DriverError.Timeout, n) := by
  intro n
  induction n with
  | zero => intro t; rfl
  | succ n ih =>
    intro t
    show (if 4 ≤ size ∧ 0x7F ≤ (reads t).getD 2 0 then
        (Except.error DriverError.Mcu, 1)
      else if (reads t).getD pos 0 &&& mask = expected then
        (Except.ok (), 1)
      else
        ((pollAux reads size pos mask expected (t + 1) n).1,
         (pollAux reads size pos mask expected (t + 1) n).2 + 1)) =
      (Except.error DriverError.Timeout, n + 1)
    rw [if_neg (hnf t), if_neg (hnm t), ih (t + 1)]

/-- C7: for every `idx` of at most 16 bits, `size` of at most 12 bits and
`type` of at most 4 bits, packing the triple into a BlockHeader word and
reading the three fields back yields the original triple. -/
theorem blockheader_roundtrip (idx size ty : Nat)
    (hidx : idx < 2 ^ 16) (hsize : size < 2 ^ 12) (hty : ty < 2 ^ 4) :
    bh_idx (bh_pack idx size ty) = idx ∧
    bh_size (bh_pack idx size ty) = size ∧
    bh_type (bh_pack idx size ty) = ty := by
  unfold bh_idx bh_size bh_type bh_pack
  have h16 : (2 : Nat) ^ 16 = 65536 := by norm_num
  have h12 : (2 : Nat) ^ 12 = 4096 := by norm_num
  have h4 : (2 : Nat) ^ 4 = 16 := by norm_num
  simp only [h16, h12, h4] at hidx hsize hty ⊢
  omega

/-- Witness for C7 at a concrete in-range triple. -/
theorem blockheader_roundtrip_witness :
    (0x1234 < 2 ^ 16 ∧ 0x456 < 2 ^ 12 ∧ 0x9 < 2 ^ 4) ∧
    (bh_idx (bh_pack 0x1234 0x456 0x9) = 0x1234 ∧
     bh_size (bh_pack 0x1234 0x456 0x9) = 0x456 ∧
     bh_type (bh_pack 0x1234 0x456 0x9) = 0x9) :=
  ⟨by norm_num,
   blockheader_roundtrip 0x1234 0x456 0x9 (by norm_num) (by norm_num) (by norm_num)⟩

/-- C1 counterexample: with status bytes `[1, 5, 5, 0x90]` and stored
counter 0 the fault bit (bit 7 of the fourth status byte) is set, yet
`check_data_ready` reports readiness and updates the counter instead of
failing with the Go2 hardware-fault error, because the source tests the
readiness branch first and only checks the fault bit in its else arm. -/
theorem check_data_ready_fault_shadowed :
    (0x90 : Nat) &&& 0x80 ≠ 0 ∧
    check_data_ready [1, 5, 5, 0x90] 0 = (Except.ok true, 1) := by
  exact ⟨by decide, rfl⟩

/-- C1 (amended): when the fault bit is set, `check_data_ready` fails
with the Go2 hardware-fault error for every stored counter value,
provided the readiness condition does not hold; when the readiness
condition holds, the call instead returns true and updates the counter,
even with the fault bit set. -/
theorem check_data_ready_fault_error (buf : List Nat) (streamcount : Nat)
    (hfault : buf.getD 3 0 &&& 0x80 ≠ 0) :
    (¬ dataReadyCond buf streamcount →
      check_data_ready buf streamcount =
        (Except.error DriverError.Go2, streamcount)) ∧
    (dataReadyCond buf streamcount →
      check_data_ready buf streamcount = (Except.ok true, buf.getD 0 0)) := by
  constructor
  · intro hnr
    unfold check_data_ready
    rw [if_neg hnr, if_pos hfault]
  · intro hr
    unfold check_data_ready
    rw [if_pos hr]

/-- Witness for C1 (amended) at concrete status bytes with the fault bit
set and the readiness condition broken. -/
theorem check_data_ready_fault_error_witness :
    [0, 0, 0, 0x80].getD 3 0 &&& 0x80 ≠ 0 ∧
    check_data_ready [0, 0, 0, 0x80] 0 = (Except.error DriverError.Go2, 0) :=
  ⟨by decide,
   (check_data_ready_fault_error [0, 0, 0, 0x80] 0 (by decide)).1 (by decide)⟩

set_option maxRecDepth 4096 in
/-- C6 counterexample: against a bus whose polled bytes never match and
never show a fault, `poll_for_answer` performs 201 read iterations — the
guard `timeout <= 200` admits 201 loop passes — and not 200. -/
theorem poll_for_answer_201_reads :
    poll_for_answer (fun _ => [0, 0, 0, 0]) 4 0 0xff 1 =
      (Except.error DriverError.Timeout, 201) ∧ (201 : Nat) ≠ 200 := by
  exact ⟨rfl, by decide⟩

/-- C6 (amended): if the polled byte masked with `mask` never equals
`expected` and no firmware-fault byte is ever observed,
`poll_for_answer` performs exactly 201 read iterations and then fails
with the timeout error. -/
theorem poll_for_answer_timeout (reads : Nat → List Nat)
    (size pos mask expected : Nat)
    (hnf : ∀ t, ¬ (4 ≤ size ∧ 0x7F ≤ (reads t).getD 2 0))
    (hnm : ∀ t, (reads t).getD pos 0 &&& mask ≠ expected) :
    poll_for_answer reads size pos mask expected =
      (Except.error DriverError.Timeout, 201) :=
  pollAux_timeout reads size pos mask expected hnf hnm 201 0

/-- Witness for C6 (amended) at a concrete never-ready bus. -/
theorem poll_for_answer_timeout_witness :
    poll_for_answer (fun _ => [0, 0, 0, 0]) 4 1 0xff 0x03 =
      (Except.error DriverError.Timeout, 201) :=
  poll_for_answer_timeout (fun _ => [0, 0, 0, 0]) 4 1 0xff 0x03
    (fun _ => by
      show ¬ (4 ≤ 4 ∧ 0x7F ≤ ([0, 0, 0, 0] : List Nat).getD 2 0)
      decide)
    (fun _ => by
      show ([0, 0, 0, 0] : List Nat).getD 1 0 &&& 0xff ≠ 0x03
      decide)

/-- C8: whenever every underlying transport operation succeeds,
`stop_ranging` returns success on every path — including when the
internal bounded status poll exhausts all its passes without observing
the awaited bit: no timeout error is surfaced. -/
theorem stop_ranging_always_ok (reads : Nat → List Nat) :
    (stop_ranging reads).1 = Except.ok () := by
  simp only [stop_ranging]
  split <;> split <;> rfl

/-- C10: on every `get_ranging_data` call whose transport read succeeds,
the stream counter is set to the first byte of the frame, whether the
call returns a parsed result or the corrupted-frame error — the state
change is not rolled back on error. -/
theorem get_ranging_data_sets_streamcount (data_read_size : Nat)
    (frame : List Nat) (streamcount : Nat) :
    (get_ranging_data data_read_size frame streamcount).2 = frame.getD 0 0 := by
  simp only [get_ranging_data]
  split
  · rfl
  · rfl

/-- Helper: joining the payload parts of the chunked multi-write
reproduces the original payload. -/
theorem write_multi_join (cs : Nat) (hcs : 2 < cs) :
    ∀ n reg (wbuf : List Nat), wbuf.length ≤ n →
      ((write_multi_to_register cs reg wbuf).map (fun c => c.drop 2)).flatten = wbuf := by
  intro n
  induction n with
  | zero =>
    intro reg wbuf h
    have hw : wbuf = [] := List.length_eq_zero.mp (Nat.le_zero.mp h)
    subst hw
    rw [write_multi_to_register]
    simp
  | succ n ih =>
    intro reg wbuf h
    rw [write_multi_to_register]
    by_cases hw : wbuf = [] ∨ cs - 2 = 0
    · rcases hw with hw | hw
      · subst hw; simp
      · omega
    · rw [dif_neg hw]
      push_neg at hw
      have hlen : wbuf.length ≠ 0 := fun hl => hw.1 (List.length_eq_zero.mp hl)
      rw [List.map_cons, List.flatten_cons,
        ih (reg + (cs - 2)) (wbuf.drop (cs - 2)) (by simp only [List.length_drop]; omega)]
      show wbuf.take (cs - 2) ++ wbuf.drop (cs - 2) = wbuf
      exact List.take_append_drop _ _

/-- Helper: the k-th physical write of the chunked multi-write carries
the big-endian address `reg + k * (cs - 2)` and the payload slice at
byte offset `k * (cs - 2)`. -/
theorem write_multi_chunk (cs : Nat) (hcs : 2 < cs) :
    ∀ n reg (wbuf : List Nat), wbuf.length ≤ n →
      ∀ k, k < (write_multi_to_register cs reg wbuf).length →
        (write_multi_to_register cs reg wbuf).getD k [] =
          regHi (reg + k * (cs - 2)) :: regLo (reg + k * (cs - 2)) ::
            (wbuf.drop (k * (cs - 2))).take (cs - 2) := by
  intro n
  induction n with
  | zero =>
    intro reg wbuf h k hk
    have hw : wbuf = [] := List.length_eq_zero.mp (Nat.le_zero.mp h)
    subst hw
    rw [write_multi_to_register] at hk
    simp at hk
  | succ n ih =>
    intro reg wbuf h k hk
    rw [write_multi_to_register] at hk ⊢
    by_cases hw : wbuf = [] ∨ cs - 2 = 0
    · rw [dif_pos hw] at hk; simp at hk
    · rw [dif_neg hw] at hk ⊢
      push_neg at hw
      have hlen : wbuf.length ≠ 0 := fun hl => hw.1 (List.length_eq_zero.mp hl)
      cases k with
      | zero => simp
      | succ k =>
        rw [List.getD_cons_succ,
          ih (reg + (cs - 2)) (wbuf.drop (cs - 2))
            (by simp only [List.length_drop]; omega) k
            (by simpa using hk)]
        have harith : reg + (cs - 2) + k * (cs - 2) = reg + (k + 1) * (cs - 2) := by ring
        have hdrop : (wbuf.drop (cs - 2)).drop (k * (cs - 2)) =
            wbuf.drop ((k + 1) * (cs - 2)) := by
          rw [List.drop_drop]
          congr 1
          ring
        rw [harith, hdrop]

/-- Helper: the read lengths of the chunked register read sum to the
requested size. -/
theorem read_sizes_sum (cs : Nat) (hcs : 0 < cs) :
    ∀ n reg size, size ≤ n →
      ((read_from_register cs reg size).map (fun p => p.2)).sum = size := by
  intro n
  induction n with
  | zero =>
    intro reg size h
    have hs : size = 0 := by omega
    subst hs
    rw [read_from_register]
    simp
  | succ n ih =>
    intro reg size h
    rw [read_from_register]
    by_cases hz : size = 0 ∨ cs = 0
    · rcases hz with hz | hz
      · subst hz; simp
      · omega
    · rw [dif_neg hz]
      push_neg at hz
      rw [List.map_cons, List.sum_cons, ih (reg + cs) (size - cs) (by omega)]
      omega

/-- Helper: the k-th transaction of the chunked register read writes the
big-endian address `reg + k * cs` and reads `min cs remaining` bytes. -/
theorem read_chunk (cs : Nat) (hcs : 0 < cs) :
    ∀ n reg size, size ≤ n →
      ∀ k, k < (read_from_register cs reg size).length →
        (read_from_register cs reg size).getD k ([], 0) =
          ([regHi (reg + k * cs), regLo (reg + k * cs)], min cs (size - k * cs)) := by
  intro n
  induction n with
  | zero =>
    intro reg size h k hk
    have hs : size = 0 := by omega
    subst hs
    rw [read_from_register] at hk
    simp at hk
  | succ n ih =>
    intro reg size h k hk
    rw [read_from_register] at hk ⊢
    by_cases hz : size = 0 ∨ cs = 0
    · rw [dif_pos hz] at hk; simp at hk
    · rw [dif_neg hz] at hk ⊢
      push_neg at hz
      cases k with
      | zero => simp
      | succ k =>
        rw [List.getD_cons_succ,
          ih (reg + cs) (size - cs) (by omega) k (by simpa using hk)]
        have harith : reg + cs + k * cs = reg + (k + 1) * cs := by ring
        have hsz : size - cs - k * cs = size - (k + 1) * cs := by
          have : (k + 1) * cs = k * cs + cs := by ring
          omega
        rw [harith, hsz]

/-- C4: the chunked multi-byte write issues bus writes whose payload
slices concatenate back to the original payload, split at `cs - 2`
boundaries, the k-th chunk starting with the big-endian encoding of
`reg` plus the byte offset of that chunk; the chunked read similarly
splits at `cs` boundaries, restating the big-endian address per chunk,
with the read lengths summing to the requested size. -/
theorem chunked_transport_correct (cs reg : Nat) (wbuf : List Nat)
    (size : Nat) (hcs : 2 < cs) :
    ((write_multi_to_register cs reg wbuf).map (fun c => c.drop 2)).flatten = wbuf ∧
    (∀ k, k < (write_multi_to_register cs reg wbuf).length →
      (write_multi_to_register cs reg wbuf).getD k [] =
        regHi (reg + k * (cs - 2)) :: regLo (reg + k * (cs - 2)) ::
          (wbuf.drop (k * (cs - 2))).take (cs - 2)) ∧
    ((read_from_register cs reg size).map (fun p => p.2)).sum = size ∧
    (∀ k, k < (read_from_register cs reg size).length →
      (read_from_register cs reg size).getD k ([], 0) =
        ([regHi (reg + k * cs), regLo (reg + k * cs)], min cs (size - k * cs))) :=
  ⟨write_multi_join cs hcs wbuf.length reg wbuf le_rfl,
   write_multi_chunk cs hcs wbuf.length reg wbuf le_rfl,
   read_sizes_sum cs (by omega) size reg size le_rfl,
   read_chunk cs (by omega) size reg size le_rfl⟩

/-- Witness for C4 with the I2C chunk size 32, a 70-byte payload and a
70-byte read. -/
theorem chunked_transport_correct_witness :
    2 < 32 ∧
    (((write_multi_to_register 32 0x2c00 (List.range 70)).map
        (fun c => c.drop 2)).flatten = List.range 70 ∧
     (∀ k, k < (write_multi_to_register 32 0x2c00 (List.range 70)).length →
       (write_multi_to_register 32 0x2c00 (List.range 70)).getD k [] =
         regHi (0x2c00 + k * (32 - 2)) :: regLo (0x2c00 + k * (32 - 2)) ::
           ((List.range 70).drop (k * (32 - 2))).take (32 - 2)) ∧
     ((read_from_register 32 0x2c00 70).map (fun p => p.2)).sum = 70 ∧
     (∀ k, k < (read_from_register 32 0x2c00 70).length →
       (read_from_register 32 0x2c00 70).getD k ([], 0) =
         ([regHi (0x2c00 + k * 32), regLo (0x2c00 + k * 32)],
          min 32 (70 - k * 32)))) :=
  ⟨by decide, chunked_transport_correct 32 0x2c00 (List.range 70) 70 (by decide)⟩

set_option maxHeartbeats 1000000 in
/-- C5: applying the 4x4 extrapolation to an 8x8 source grid whose 64
cells all equal `k` (any 32-bit value) yields a grid whose first 16
cells each equal `k` and whose cells 16..64 are all zero; the transform
is a pure function of its input, hence deterministic. -/
theorem extrapolate_grid_const (k : Nat) (hk : k < 2 ^ 32) :
    extrapolate_grid (List.replicate 64 k) =
      List.replicate 16 k ++ List.replicate 48 0 := by
  have hm : (k + k + k + k) / 4 % 2 ^ 32 = k := by
    have h32 : (2 : Nat) ^ 32 = 4294967296 := by norm_num
    rw [h32] at hk ⊢
    omega
  have s0 : gridStep (List.replicate 64 k) 0 0 =
      List.replicate 1 ((k + k + k + k) / 4 % 2 ^ 32) ++ List.replicate 63 k := rfl
  have s1 : gridStep (List.replicate 1 ((k + k + k + k) / 4 % 2 ^ 32) ++ List.replicate 63 k) 0 1 =
      List.replicate 2 ((k + k + k + k) / 4 % 2 ^ 32) ++ List.replicate 62 k := rfl
  have s2 : gridStep (List.replicate 2 ((k + k + k + k) / 4 % 2 ^ 32) ++ List.replicate 62 k) 0 2 =
      List.replicate 3 ((k + k + k + k) / 4 % 2 ^ 32) ++ List.replicate 61 k := rfl
  have s3 : gridStep (List.replicate 3 ((k + k + k + k) / 4 % 2 ^ 32) ++ List.replicate 61 k) 0 3 =
      List.replicate 4 ((k + k + k + k) / 4 % 2 ^ 32) ++ List.replicate 60 k := rfl
  have s4 : gridStep (List.replicate 4 ((k + k + k + k) / 4 % 2 ^ 32) ++ List.replicate 60 k) 1 0 =
      List.replicate 5 ((k + k + k + k) / 4 % 2 ^ 32) ++ List.replicate 59 k := rfl
  have s5 : gridStep (List.replicate 5 ((k + k + k + k) / 4 % 2 ^ 32) ++ List.replicate 59 k) 1 1 =
      List.replicate 6 ((k + k + k + k) / 4 % 2 ^ 32) ++ List.replicate 58 k := rfl
  have s6 : gridStep (List.replicate 6 ((k + k + k + k) / 4 % 2 ^ 32) ++ List.replicate 58 k) 1 2 =
      List.replicate 7 ((k + k + k + k) / 4 % 2 ^ 32) ++ List.replicate 57 k := rfl
  have s7 : gridStep (List.replicate 7 ((k + k + k + k) / 4 % 2 ^ 32) ++ List.replicate 57 k) 1 3 =
      List.replicate 8 ((k + k + k + k) / 4 % 2 ^ 32) ++ List.replicate 56 k := rfl
  have s8 : gridStep (List.replicate 8 ((k + k + k + k) / 4 % 2 ^ 32) ++ List.replicate 56 k) 2 0 =
      List.replicate 9 ((k + k + k + k) / 4 % 2 ^ 32) ++ List.replicate 55 k := rfl
  have s9 : gridStep (List.replicate 9 ((k + k + k + k) / 4 % 2 ^ 32) ++ List.replicate 55 k) 2 1 =
      List.replicate 10 ((k + k + k + k) / 4 % 2 ^ 32) ++ List.replicate 54 k := rfl
  have s10 : gridStep (List.replicate 10 ((k + k + k + k) / 4 % 2 ^ 32) ++ List.replicate 54 k) 2 2 =
      List.replicate 11 ((k + k + k + k) / 4 % 2 ^ 32) ++ List.replicate 53 k := rfl
  have s11 : gridStep (List.replicate 11 ((k + k + k + k) / 4 % 2 ^ 32) ++ List.replicate 53 k) 2 3 =
      List.replicate 12 ((k + k + k + k) / 4 % 2 ^ 32) ++ List.replicate 52 k := rfl
  have s12 : gridStep (List.replicate 12 ((k + k + k + k) / 4 % 2 ^ 32) ++ List.replicate 52 k) 3 0 =
      List.replicate 13 ((k + k + k + k) / 4 % 2 ^ 32) ++ List.replicate 51 k := rfl
  have s13 : gridStep (List.replicate 13 ((k + k + k + k) / 4 % 2 ^ 32) ++ List.replicate 51 k) 3 1 =
      List.replicate 14 ((k + k + k + k) / 4 % 2 ^ 32) ++ List.replicate 50 k := rfl
  have s14 : gridStep (List.replicate 14 ((k + k + k + k) / 4 % 2 ^ 32) ++ List.replicate 50 k) 3 2 =
      List.replicate 15 ((k + k + k + k) / 4 % 2 ^ 32) ++ List.replicate 49 k := rfl
  have s15 : gridStep (List.replicate 15 ((k + k + k + k) / 4 % 2 ^ 32) ++ List.replicate 49 k) 3 3 =
      List.replicate 16 ((k + k + k + k) / 4 % 2 ^ 32) ++ List.replicate 48 k := rfl
  have hw : writeAt (List.replicate 16 ((k + k + k + k) / 4 % 2 ^ 32) ++ List.replicate 48 k) 16 (List.replicate 48 0) =
      List.replicate 16 ((k + k + k + k) / 4 % 2 ^ 32) ++ List.replicate 48 0 := rfl
  have hr : List.range 4 = [0, 1, 2, 3] := rfl
  simp only [extrapolate_grid, hr, List.foldl_cons, List.foldl_nil]
  rw [s0, s1, s2, s3, s4, s5, s6, s7, s8, s9, s10, s11, s12, s13, s14, s15, hw, hm]

/-- Witness for C5 at the concrete cell value 5. -/
theorem extrapolate_grid_const_witness :
    5 < 2 ^ 32 ∧
    extrapolate_grid (List.replicate 64 5) =
      List.replicate 16 5 ++ List.replicate 48 0 :=
  ⟨by norm_num, extrapolate_grid_const 5 (by norm_num)⟩

/-- C2 counterexample: `data_size = 2` is not a multiple of 4, yet
`dci_read_data` raises no parameter-validation error — against a bus
whose status poll answers `0x03` at once, the call succeeds and issues
bus transfers.  The source checks only the size bound
`data_size + 12 > VL53L5CX_TEMPORARY_BUFFER_SIZE`. -/
theorem dci_read_data_no_alignment_check :
    ¬ ((2 : Nat) % 4 = 0) ∧
    (dci_read_data (fun _ => [0, 3, 0, 0]) 0x1234 2).1 = Except.ok () ∧
    (dci_read_data (fun _ => [0, 3, 0, 0]) 0x1234 2).2 ≠ [] := by
  refine ⟨by decide, rfl, by decide⟩

/-- C2 (amended): `dci_read_data` validates only the size bound — it
fails with the parameter error `Other` and issues no bus operation
exactly when `data_size + 12` exceeds the scratch capacity; any other
`data_size`, multiple of 4 or not, proceeds with the framed read and
issues bus operations. -/
theorem dci_read_data_validation (reads : Nat → List Nat)
    (index data_size : Nat) :
    (VL53L5CX_TEMPORARY_BUFFER_SIZE < data_size + 12 →
      dci_read_data reads index data_size =
        (Except.error DriverError.Other, [])) ∧
    (data_size + 12 ≤ VL53L5CX_TEMPORARY_BUFFER_SIZE →
      (dci_read_data reads index data_size).2 ≠ []) := by
  constructor
  · intro hgt
    unfold dci_read_data
    rw [if_pos (by omega)]
  · intro hle
    simp only [dci_read_data]
    rw [if_neg (by omega)]
    cases hp : (poll_for_answer reads 4 1 0xff 0x03).1 <;> simp [hp]

/-- Witness for C2 (amended): an oversized request fails with the
parameter error and leaves an empty bus trace. -/
theorem dci_read_data_validation_witness :
    VL53L5CX_TEMPORARY_BUFFER_SIZE < 2000 + 12 ∧
    dci_read_data (fun _ => []) 0 2000 = (Except.error DriverError.Other, []) :=
  ⟨by norm_num [VL53L5CX_TEMPORARY_BUFFER_SIZE],
   (dci_read_data_validation (fun _ => []) 0 2000).1
     (by norm_num [VL53L5CX_TEMPORARY_BUFFER_SIZE])⟩

/-- C3: evaluation at the failing input.  With payload `[1, 2, 3, 4]`
(`data_size = 4`, index 0) at the head of a 20-byte scratch buffer and a
status poll answering `0x03` at once, `dci_write_data` succeeds but
leaves `[0, 0, 3, 0]` — the byte-swapped poll-status bytes — as the
first `data_size` bytes of the scratch buffer.  The final swap of the
source acts on the region `0..data_size`, where the frame header and
then the poll answer live after the in-place shift, not on the shifted
payload, so the caller view `[1, 2, 3, 4]` is not restored. -/
theorem dci_write_data_payload_not_restored :
    (dci_write_data (fun _ => [0, 3, 0, 0]) 0 4
      ([1, 2, 3, 4] ++ List.replicate 16 0)).1 = Except.ok () ∧
    ((dci_write_data (fun _ => [0, 3, 0, 0]) 0 4
      ([1, 2, 3, 4] ++ List.replicate 16 0)).2.2).take 4 = [0, 0, 3, 0] ∧
    [0, 0, 3, 0] ≠ [1, 2, 3, 4] := by
  refine ⟨rfl, rfl, by decide⟩

set_option maxHeartbeats 1000000 in
set_option maxRecDepth 4096 in
/-- C9: a DCI write of an 8-byte payload puts exactly 20 bytes on the
wire — the 4-byte header, the 8 byte-swapped payload bytes and the
8-byte footer — and the 16-bit big-endian length field of the footer
(wire bytes 18 and 19) encodes `8 + 8 = 16`. -/
theorem dci_write_frame_size_8 (reads : Nat → List Nat) (index : Nat)
    (temp : List Nat) (h : 20 ≤ temp.length) :
    (dci_write_data reads index 8 temp).2.1 =
      dciHeaders index 8 ++ swapWords (temp.take 8) ++ dciFooter 8 ∧
    (dci_write_data reads index 8 temp).2.1.length = 20 ∧
    (dci_write_data reads index 8 temp).2.1.getD 18 0 * 256 +
      (dci_write_data reads index 8 temp).2.1.getD 19 0 = 16 := by
  rcases temp with _ | ⟨a0, temp⟩
  · simp only [List.length_nil] at h; omega
  rcases temp with _ | ⟨a1, temp⟩
  · simp only [List.length_cons, List.length_nil] at h; omega
  rcases temp with _ | ⟨a2, temp⟩
  · simp only [List.length_cons, List.length_nil] at h; omega
  rcases temp with _ | ⟨a3, temp⟩
  · simp only [List.length_cons, List.length_nil] at h; omega
  rcases temp with _ | ⟨a4, temp⟩
  · simp only [List.length_cons, List.length_nil] at h; omega
  rcases temp with _ | ⟨a5, temp⟩
  · simp only [List.length_cons, List.length_nil] at h; omega
  rcases temp with _ | ⟨a6, temp⟩
  · simp only [List.length_cons, List.length_nil] at h; omega
  rcases temp with _ | ⟨a7, temp⟩
  · simp only [List.length_cons, List.length_nil] at h; omega
  have hcap : ¬ (8 + 12 >
      (a0 :: a1 :: a2 :: a3 :: a4 :: a5 :: a6 :: a7 :: temp).length) := by
    simp only [List.length_cons] at h ⊢
    omega
  have hwire : (dci_write_data reads index 8
      (a0 :: a1 :: a2 :: a3 :: a4 :: a5 :: a6 :: a7 :: temp)).2.1 =
      dciHeaders index 8 ++
        swapWords ((a0 :: a1 :: a2 :: a3 :: a4 :: a5 :: a6 :: a7 :: temp).take 8) ++
        dciFooter 8 := by
    simp only [dci_write_data]
    rw [if_neg hcap]
    cases hp : (poll_for_answer reads 4 1 0xff 0x03).1 <;>
      simp only [hp] <;>
      exact rfl
  refine ⟨hwire, ?_, ?_⟩
  · rw [hwire]; rfl
  · rw [hwire]; rfl

/-- Witness for C9 at a concrete 20-byte scratch buffer. -/
theorem dci_write_frame_size_8_witness :
    20 ≤ (List.replicate 20 0).length ∧
    (dci_write_data (fun _ => []) 0 8 (List.replicate 20 0)).2.1.length = 20 :=
  ⟨by decide,
   ((dci_write_frame_size_8 (fun _ => []) 0 (List.replicate 20 0)
     (by decide)).2).1⟩

end VL53L5CX
